import Mathlib

/-!
# org-manager: the Azure AD target (`azuread.go`)

A shallow embedding of the Azure AD provider adapter of org-manager and the
properties of its department and user handles.

Conventions of the embedding

* A Go pointer or interface value that may be nil is an `Option`; a nil
  dereference is the outcome `Outcome.panicked`.
* A Go `error` is `Option GoError` (`none` is the nil error).
* Every request sent to the directory provider is recorded, in order, in the
  `calls` of a `Run`; the provider's answers are given by the functions of
  `GraphServiceClient` and `RequestAdapter`.
* `ExternalIdentityParseString` is declared in another file of the package; the
  operations of `azuread.go` take it as the parameter `parseString`.
-/

namespace OrgManager

/-! ## Go strings -/

/-- The pieces of `s` between the occurrences of `sep`; the empty input gives
one empty piece, as `strings.Split` does. -/
def splitChars (sep : Char) : List Char → List (List Char)
  | [] => [[]]
  | c :: cs =>
    if c = sep then [] :: splitChars sep cs
    else
      match splitChars sep cs with
      | [] => [[c]]
      | p :: ps => (c :: p) :: ps

/-- Go `strings.Split(s, sep)` for a one-character separator (the source only
splits on `","`). -/
def stringsSplit (s : String) (sep : Char) : List String :=
  (splitChars sep s.data).map String.mk

/-- Go `strings.Join(elems, sep)`. -/
def stringsJoin : List String → String → String
  | [], _ => ""
  | [a], _ => a
  | a :: b :: rest, sep => a ++ sep ++ stringsJoin (b :: rest) sep

/-! ## Go errors -/

/-- The error values the adapter sees: the provider's structured error
(`*odataerrors.ODataError`), any other error value of the SDK, and the string
errors made by `errors.New` and by `fmt.Errorf` without `%w`. -/
inductive GoError where
  | odataError (message : String)
  | sdkError (message : String)
  | errorString (message : String)
deriving DecidableEq, Repr

/-- The method `Error()` of a Go error. -/
def GoError.Error : GoError → String
  | .odataError m => m
  | .sdkError m => m
  | .errorString m => m

/-- Go `errors.New(text)`. -/
def errorsNew (text : String) : GoError := .errorString text

/-- Go `fmt.Errorf(context + "%s", err)`: a new string error whose text is the
context followed by the text of `err`. -/
def fmtErrorf (context : String) (err : GoError) : GoError :=
  .errorString (context ++ err.Error)

/-! ## Provider records -/

/-- A value stored under a key of an `AdditionalData` map (`map[string]any`):
either a `*string` (possibly nil) or a value of some other dynamic type. -/
inductive AnyValue where
  | stringPtr (p : Option String)
  | otherValue
deriving DecidableEq, Repr

/-- The fields of `models.Groupable` the adapter reads or writes. -/
structure Group where
  id : Option String := none
  displayName : Option String := none
  description : Option String := none
  mailEnabled : Option Bool := none
  mailNickname : Option String := none
  securityEnabled : Option Bool := none
  additionalData : List (String × AnyValue) := []
deriving DecidableEq, Repr

/-- The fields of `models.Userable` the adapter reads or writes. -/
structure User where
  id : Option String := none
  displayName : Option String := none
  mail : Option String := none
  otherMails : List String := []
deriving DecidableEq, Repr

/-- A partial membership record (`models.DirectoryObjectable`). -/
structure DirectoryObject where
  id : Option String := none
  additionalData : List (String × AnyValue) := []
deriving DecidableEq, Repr

/-- The request built by `CreatePostRequestInformation`. -/
structure RequestInformation where
  url : String
  headers : List (String × String)
  body : Group
deriving DecidableEq, Repr

/-- The options handed to a groups POST (`groups.GroupsRequestBuilderPostOptions`). -/
structure GroupsRequestBuilderPostOptions where
  Body : Group
  Headers : List (String × String) := []
deriving DecidableEq, Repr

/-- External identities are strings (`type ExternalIdentity string`). -/
abbrev ExternalIdentity := String

/-- The options of `CreateSubDepartment`. -/
structure DepartmentCreateOptions where
  Name : String
deriving DecidableEq, Repr

/-! ## Provider requests and runs -/

/-- The requests `azuread.go` sends to the directory provider. -/
inductive Call where
  | groupsByIdGet (id : String)
  | groupsByIdMembersGet (id : String)
  | usersByIdGet (id : String)
  | usersGet (filter : String)
  | groupsPost (body : Group)
  | sendAsync (request : RequestInformation)
  | groupsByIdPatch (id : String) (body : Group)
  | usersByIdPatch (id : String) (body : User)
deriving DecidableEq, Repr

/-- How a Go function ends: it returns a value or it panics. -/
inductive Outcome (α : Type) where
  | returned (value : α)
  | panicked
deriving DecidableEq, Repr

/-- A run of a Go function: the provider requests it sent, in order, and how it
ended. -/
structure Run (α : Type) where
  calls : List Call
  outcome : Outcome α
deriving DecidableEq, Repr

/-- A run that returns at once. -/
def Run.pure {α : Type} (a : α) : Run α := ⟨[], .returned a⟩

/-- Sequencing: the second part runs only if the first returned. -/
def Run.bind {α β : Type} (m : Run α) (f : α → Run β) : Run β :=
  match m.outcome with
  | .returned a => ⟨m.calls ++ (f a).calls, (f a).outcome⟩
  | .panicked => ⟨m.calls, .panicked⟩

instance : Monad Run where
  pure := Run.pure
  bind := Run.bind

/-- A run that panics at once. -/
def Run.panicNow {α : Type} : Run α := ⟨[], .panicked⟩

/-- Record one provider request. -/
def Run.issue (c : Call) : Run Unit := ⟨[c], .returned ()⟩

/-- Dereference of a pointer or method call on an interface value: panics on nil. -/
def deref {α : Type} : Option α → Run α
  | some a => Run.pure a
  | none => Run.panicNow

/-- The typed requests of `msgraphsdk.GraphServiceClient`, as the answers the
provider gives to them. -/
structure GraphServiceClient where
  groupsByIdGet : String → Except GoError Group
  groupsByIdMembersGet : String → Except GoError (List DirectoryObject)
  usersByIdGet : String → Except GoError User
  usersGet : String → Except GoError (List User)
  groupsPost : Group → Except GoError Group
  groupsByIdPatch : String → Group → Option GoError
  usersByIdPatch : String → User → Option GoError

/-- The request adapter (`abstractions.RequestAdapter`) together with the
request-information step of a request builder made over it. -/
structure RequestAdapter where
  createPostRequestInformation :
    String → GroupsRequestBuilderPostOptions → Except GoError RequestInformation
  sendAsync : RequestInformation → Option GoError

/-! ## The target -/

/-- The configuration of the target (`azureADConfig`). -/
structure azureADConfig where
  Platform : String
  Slug : String
  TenantID : String
  ClientID : String
  ClientSecret : String
  RootGroupID : String
deriving DecidableEq, Repr

/-- The target (`AzureAD`); the zero value `AzureAD{}` has all three fields nil. -/
structure AzureAD where
  client : Option GraphServiceClient := none
  adapter : Option RequestAdapter := none
  config : Option azureADConfig := none

/-- A department handle (`azureGroup`). -/
structure azureGroup where
  target : AzureAD
  raw : Option Group

/-- A user handle (`azureADUser`). -/
structure azureADUser where
  target : AzureAD
  raw : Option User

/-- Source function `AzureAD.GetTargetSlug`. -/
def AzureAD.GetTargetSlug (a : AzureAD) : Run String := do
  let config ← deref a.config
  pure config.Slug

/-- Source function `AzureAD.GetPlatform`. -/
def AzureAD.GetPlatform (a : AzureAD) : Run String := do
  let config ← deref a.config
  pure config.Platform

/-! ## The external-identity codec (declared outside `azuread.go`) -/

/-- Modelled from the spec: `ExternalIdentitiesFromStringList` is declared in a
file of the package that is not part of the sources at hand. The spec (4.1):
"filters a raw string collection down to entries that parse successfully;
non-matching entries are silently dropped", and (8) "returns exactly the
identity-shaped subset, preserving relative order". -/
def ExternalIdentitiesFromStringList
    (parseString : String → Except GoError ExternalIdentity)
    (list : List String) : List ExternalIdentity :=
  list.filter (fun s => (parseString s).isOk)

/-- Modelled from the spec: the fields of a canonical identity. The spec (3, 6):
the canonical form is `ei.<kind>.<local-id>@<org-slug>.<platform>` with kind
`user` or `department`; (4.1) a string "must start with `ei.`, contain exactly
the three dotted/at-delimited fields". The text after `ei.` must hold exactly one
`@`, exactly one `.` on each side of it, and no empty field. -/
def canonicalFields (s : List Char) : Option (String × String × String × String) :=
  match s with
  | 'e' :: 'i' :: '.' :: rest =>
    match splitChars '@' rest with
    | [left, right] =>
      match splitChars '.' left, splitChars '.' right with
      | [kind, localId], [slug, platform] =>
        if (kind = "user".data ∨ kind = "department".data)
            ∧ localId ≠ [] ∧ slug ≠ [] ∧ platform ≠ [] then
          some (String.mk kind, String.mk localId, String.mk slug, String.mk platform)
        else none
      | _, _ => none
    | _ => none
  | _ => none

/-- Modelled from the spec: `ExternalIdentityParseString` is declared in a file
of the package that is not part of the sources at hand. The spec (4.1): it "fails
with `FormatError` if `s` does not match the canonical grammar"; on success the
identity is the string itself. -/
def ExternalIdentityParseString (s : String) : Except GoError ExternalIdentity :=
  match canonicalFields s.data with
  | some _ => .ok s
  | none => .error (errorsNew "FormatError")

/-! ## Target operations -/

/-- Source function `AzureAD.RootDepartment` (lines 67-73): the error of the fetch is discarded
and the record of the handle is nil when the fetch failed. -/
def AzureAD.RootDepartment (d : AzureAD) : Run azureGroup := do
  let config ← deref d.config
  let client ← deref d.client
  Run.issue (.groupsByIdGet config.RootGroupID)
  pure ⟨d, (client.groupsByIdGet config.RootGroupID).toOption⟩

/-- The filter of the user query (line 77):
`fmt.Sprintf("otherMails/any(id:id eq '%s')", extID)`. -/
def lookupFilter (extID : ExternalIdentity) : String :=
  "otherMails/any(id:id eq '" ++ extID ++ "')"

/-- Source function `AzureAD.LookupEntryUserByExternalIdentity` (lines 75-92). The handle it
returns has the zero target `AzureAD{}`. -/
def AzureAD.LookupEntryUserByExternalIdentity (d : AzureAD) (extID : ExternalIdentity) :
    Run (Option azureADUser × Option GoError) := do
  let filter := lookupFilter extID
  let client ← deref d.client
  Run.issue (.usersGet filter)
  match client.usersGet filter with
  | .error err => pure (none, some err)
  | .ok value =>
    if value.length ≠ 1 then
      pure (none, some (errorsNew "cannot identitify user"))
    else
      pure (some ⟨{}, value.head?⟩, none)

/-- Source function `AzureAD.LookupEntryDepartmentByExternalIdentity` (lines 94-96): not
implemented, it panics. -/
def AzureAD.LookupEntryDepartmentByExternalIdentity (_d : AzureAD) (_extID : ExternalIdentity) :
    Run (Option azureGroup × Option GoError) :=
  Run.panicNow

/-! ## Department operations -/

/-- The expression `*v.GetAdditionalData()["@odata.type"].(*string)`: the type
assertion panics when the key is absent or holds another type, the dereference
when the pointer is nil. -/
def odataType (v : DirectoryObject) : Run String :=
  match v.additionalData.lookup "@odata.type" with
  | some (.stringPtr (some tag)) => pure tag
  | _ => Run.panicNow

/-- Source function `azureGroup.Name`. -/
def azureGroup.Name (g : azureGroup) : Run String := do
  let raw ← deref g.raw
  deref raw.displayName

/-- Source function `azureGroup.DepartmentID`. -/
def azureGroup.DepartmentID (g : azureGroup) : Run String := do
  let raw ← deref g.raw
  deref raw.id

/-- The loop of `SubDepartments` (lines 113-121) over the members still to be
visited, with the departments collected so far. -/
def azureGroup.SubDepartments.loop (target : AzureAD) :
    List DirectoryObject → List azureGroup → Run (List azureGroup)
  | [], departments => pure departments
  | v :: rest, departments => do
    let tag ← odataType v
    if tag = "#microsoft.graph.group" then
      let id ← deref v.id
      let client ← deref target.client
      Run.issue (.groupsByIdGet id)
      azureGroup.SubDepartments.loop target rest
        (departments ++ [⟨target, (client.groupsByIdGet id).toOption⟩])
    else
      azureGroup.SubDepartments.loop target rest departments

/-- Source function `azureGroup.SubDepartments` (lines 111-123): both errors are discarded; a
failed listing leaves the response nil, and `GetValue` on it panics. -/
def azureGroup.SubDepartments (g : azureGroup) : Run (List azureGroup) := do
  let raw ← deref g.raw
  let id ← deref raw.id
  let client ← deref g.target.client
  Run.issue (.groupsByIdMembersGet id)
  let groups ← deref (client.groupsByIdMembersGet id).toOption
  azureGroup.SubDepartments.loop g.target groups []

/-- A request builder made by `groups.NewGroupsRequestBuilder(url, adapter)`. -/
structure GroupsRequestBuilder where
  urlTemplate : String
  requestAdapter : Option RequestAdapter

/-- Source function `azureHackPost` (lines 160-174). -/
def azureHackPost (m : GroupsRequestBuilder) (requestAdapter : Option RequestAdapter)
    (options : GroupsRequestBuilderPostOptions) : Run (Option GoError) := do
  let builderAdapter ← deref m.requestAdapter
  match builderAdapter.createPostRequestInformation m.urlTemplate options with
  | .error err => pure (some err)
  | .ok requestInfo =>
    let adapter ← deref requestAdapter
    Run.issue (.sendAsync requestInfo)
    match adapter.sendAsync requestInfo with
    | some err => pure (some err)
    | none => pure none

/-- The group record `CreateSubDepartment` posts (lines 126-130). -/
def newGroupBody (options : DepartmentCreateOptions) : Group :=
  { displayName := some options.Name
    mailEnabled := some false
    mailNickname := some "placeholder"
    securityEnabled := some true }

/-- The options of the link request (lines 137-143) for the created group id. -/
def linkOptions (newId : String) : GroupsRequestBuilderPostOptions :=
  { Body :=
      { additionalData :=
          [("@odata.id",
            .stringPtr (some ("https://graph.microsoft.com/v1.0/directoryObjects/" ++ newId)))] }
    Headers := [("Content-Type", "application/json")] }

/-- The URL of the link request (line 144) for the parent group id. -/
def linkUrl (parentId : String) : String :=
  "https://graph.microsoft.com/v1.0/groups/" ++ parentId ++ "/members/$ref"

/-- Source function `azureGroup.CreateSubDepartment` (lines 125-157). After the link error has
been replaced by a string error, the type assertion of line 148 cannot hold, so
nothing is printed; printing is not part of the result in any case. -/
def azureGroup.CreateSubDepartment (g : azureGroup) (options : DepartmentCreateOptions) :
    Run (Option azureGroup × Option GoError) := do
  let newGroup := newGroupBody options
  let client ← deref g.target.client
  Run.issue (.groupsPost newGroup)
  match client.groupsPost newGroup with
  | .error err => pure (none, some (fmtErrorf "Create group faild: " err))
  | .ok newGroupable =>
    let newId ← deref newGroupable.id
    let opts := linkOptions newId
    let raw ← deref g.raw
    let parentId ← deref raw.id
    let requestBuilder : GroupsRequestBuilder := ⟨linkUrl parentId, g.target.adapter⟩
    let linkErr ← azureHackPost requestBuilder g.target.adapter opts
    match linkErr with
    | some err =>
      pure (some ⟨g.target, some newGroupable⟩,
        some (fmtErrorf "Link group membership faild: " err))
    | none => pure (some ⟨g.target, some newGroupable⟩, none)

/-- The loop of `Users` (lines 178-186). -/
def azureGroup.Users.loop (target : AzureAD) :
    List DirectoryObject → List azureADUser → Run (List azureADUser)
  | [], users => pure users
  | v :: rest, users => do
    let tag ← odataType v
    if tag = "#microsoft.graph.user" then
      let id ← deref v.id
      let client ← deref target.client
      Run.issue (.usersByIdGet id)
      azureGroup.Users.loop target rest
        (users ++ [⟨target, (client.usersByIdGet id).toOption⟩])
    else
      azureGroup.Users.loop target rest users

/-- Source function `azureGroup.Users` (lines 176-188). -/
def azureGroup.Users (g : azureGroup) : Run (List azureADUser) := do
  let raw ← deref g.raw
  let id ← deref raw.id
  let client ← deref g.target.client
  Run.issue (.groupsByIdMembersGet id)
  let groups ← deref (client.groupsByIdMembersGet id).toOption
  azureGroup.Users.loop g.target groups []

/-- Source function `azureGroup.GetExternalIdentities` (lines 190-196). -/
def azureGroup.GetExternalIdentities
    (parseString : String → Except GoError ExternalIdentity) (u : azureGroup) :
    Run (List ExternalIdentity) := do
  let raw ← deref u.raw
  let desc := match raw.description with
    | some d => d
    | none => ""
  pure (ExternalIdentitiesFromStringList parseString (stringsSplit desc ','))

/-- The loop of lines 200-202 and 242-244: append every identity, as a string,
to the list built so far. -/
def appendIdentities (start : List String) (extIDs : List ExternalIdentity) : List String :=
  extIDs.foldl (fun acc extID => acc ++ [extID]) start

/-- The description `azureGroup.SetExternalIdentities` writes (lines 199-204). -/
def newDescription (extIDs : List ExternalIdentity) : String :=
  stringsJoin (appendIdentities [] extIDs) ","

/-- Source function `azureGroup.SetExternalIdentities` (lines 198-208). -/
def azureGroup.SetExternalIdentities (u : azureGroup) (extIDs : List ExternalIdentity) :
    Run (Option GoError) := do
  let newGroup : Group := { description := some (newDescription extIDs) }
  let raw ← deref u.raw
  let id ← deref raw.id
  let client ← deref u.target.client
  Run.issue (.groupsByIdPatch id newGroup)
  pure (client.groupsByIdPatch id newGroup)

/-! ## User operations -/

/-- Source function `azureADUser.ExternalIdentity` (lines 215-217). -/
def azureADUser.ExternalIdentity (u : azureADUser) : Run ExternalIdentity := do
  let raw ← deref u.raw
  let id ← deref raw.id
  let config ← deref u.target.config
  pure ("ei.user." ++ id ++ "@" ++ config.Slug ++ "." ++ config.Platform)

/-- Source function `azureADUser.UserId`. -/
def azureADUser.UserId (u : azureADUser) : Run String := do
  let raw ← deref u.raw
  deref raw.id

/-- Source function `azureADUser.GetExternalIdentities` (lines 231-233). -/
def azureADUser.GetExternalIdentities
    (parseString : String → Except GoError OrgManager.ExternalIdentity) (u : azureADUser) :
    Run (List OrgManager.ExternalIdentity) := do
  let raw ← deref u.raw
  pure (ExternalIdentitiesFromStringList parseString raw.otherMails)

/-- The loop of lines 236-241: keep, in order, the other-emails entries that
`ExternalIdentityParseString` rejects. -/
def keptOtherMails (parseString : String → Except GoError OrgManager.ExternalIdentity)
    (otherMails : List String) : List String :=
  otherMails.foldl
    (fun newOtherMails mail =>
      match parseString mail with
      | .error _ => newOtherMails ++ [mail]
      | .ok _ => newOtherMails)
    []

/-- The other-emails list `azureADUser.SetExternalIdentities` writes (lines 236-246). -/
def newOtherMails (parseString : String → Except GoError OrgManager.ExternalIdentity)
    (otherMails : List String) (extIDs : List OrgManager.ExternalIdentity) : List String :=
  appendIdentities (keptOtherMails parseString otherMails) extIDs

/-- Source function `azureADUser.SetExternalIdentities` (lines 235-250). -/
def azureADUser.SetExternalIdentities
    (parseString : String → Except GoError OrgManager.ExternalIdentity) (u : azureADUser)
    (extIDs : List OrgManager.ExternalIdentity) : Run (Option GoError) := do
  let raw ← deref u.raw
  let newUser : User := { otherMails := newOtherMails parseString raw.otherMails extIDs }
  let id ← deref raw.id
  let client ← deref u.target.client
  Run.issue (.usersByIdPatch id newUser)
  pure (client.usersByIdPatch id newUser)

/-! ## Provider errors of a run -/

/-- The error a response carries, if it carries one. -/
def errorOf {α : Type} : Except GoError α → Option GoError
  | .error e => some e
  | .ok _ => none

/-- The error the provider behind the target answers to a request, if it answers
one. -/
def AzureAD.providerError (d : AzureAD) : Call → Option GoError
  | .groupsByIdGet id => d.client.bind (fun c => errorOf (c.groupsByIdGet id))
  | .groupsByIdMembersGet id => d.client.bind (fun c => errorOf (c.groupsByIdMembersGet id))
  | .usersByIdGet id => d.client.bind (fun c => errorOf (c.usersByIdGet id))
  | .usersGet filter => d.client.bind (fun c => errorOf (c.usersGet filter))
  | .groupsPost body => d.client.bind (fun c => errorOf (c.groupsPost body))
  | .sendAsync request => d.adapter.bind (fun a => a.sendAsync request)
  | .groupsByIdPatch id body => d.client.bind (fun c => c.groupsByIdPatch id body)
  | .usersByIdPatch id body => d.client.bind (fun c => c.usersByIdPatch id body)

/-- Whether the member carries the given string as its `@odata.type` tag. -/
def hasTag (tag : String) (v : DirectoryObject) : Bool :=
  decide (v.additionalData.lookup "@odata.type" = some (.stringPtr (some tag)))

/-! ## Sample data -/

/-- A sample configuration. -/
def sampleConfig : azureADConfig :=
  { Platform := "azuread", Slug := "acme", TenantID := "t", ClientID := "c",
    ClientSecret := "s", RootGroupID := "root" }

/-- A partial membership record with the given id and type tag. -/
def sampleMember (id tag : String) : DirectoryObject :=
  { id := some id, additionalData := [("@odata.type", .stringPtr (some tag))] }

/-- The full record the sample provider holds for a group id. -/
def sampleGroupRecord (id : String) : Group :=
  { id := some id, displayName := some ("name of " ++ id),
    description := some ("ei.department." ++ id ++ "@other.ldap") }

/-- The full record the sample provider holds for a user id. -/
def sampleUserRecord (id : String) : User :=
  { id := some id, displayName := some ("name of " ++ id), mail := some (id ++ "@acme.com"),
    otherMails := ["real@x.com", "ei.user.old@other.ldap"] }

/-- A sample provider in which every request succeeds: group `g0` has the
members `gA` (group), `uB` (user), `gC` (group); the user filter for the identity
`ei.user.1@other.ldap` matches one user, the one for `ei.user.2@other.ldap` two
users, every other filter none. -/
def sampleClient : GraphServiceClient where
  groupsByIdGet := fun id => .ok (sampleGroupRecord id)
  groupsByIdMembersGet := fun id =>
    if id = "g0" then
      .ok [sampleMember "gA" "#microsoft.graph.group", sampleMember "uB" "#microsoft.graph.user",
        sampleMember "gC" "#microsoft.graph.group"]
    else .ok []
  usersByIdGet := fun id => .ok (sampleUserRecord id)
  usersGet := fun filter =>
    if filter = "otherMails/any(id:id eq 'ei.user.1@other.ldap')" then
      .ok [sampleUserRecord "u1"]
    else if filter = "otherMails/any(id:id eq 'ei.user.2@other.ldap')" then
      .ok [sampleUserRecord "u2", sampleUserRecord "u3"]
    else .ok []
  groupsPost := fun body => .ok { body with id := some "gNew" }
  groupsByIdPatch := fun _ _ => none
  usersByIdPatch := fun _ _ => none

/-- A sample provider in which every request fails. -/
def failingClient : GraphServiceClient where
  groupsByIdGet := fun _ => .error (.odataError "Request_ResourceNotFound")
  groupsByIdMembersGet := fun _ => .error (.odataError "Request_ResourceNotFound")
  usersByIdGet := fun _ => .error (.odataError "Request_ResourceNotFound")
  usersGet := fun _ => .error (.odataError "Request_UnsupportedQuery")
  groupsPost := fun _ => .error (.odataError "Authorization_RequestDenied")
  groupsByIdPatch := fun _ _ => some (.odataError "Authorization_RequestDenied")
  usersByIdPatch := fun _ _ => some (.odataError "Authorization_RequestDenied")

/-- A sample provider that lists members but fails every point fetch. -/
def fetchFailingClient : GraphServiceClient :=
  { sampleClient with
    groupsByIdGet := fun _ => .error (.odataError "Request_ResourceNotFound")
    usersByIdGet := fun _ => .error (.odataError "Request_ResourceNotFound") }

/-- A sample adapter whose link request succeeds. -/
def sampleAdapter : RequestAdapter where
  createPostRequestInformation := fun url options => .ok ⟨url, options.Headers, options.Body⟩
  sendAsync := fun _ => none

/-- A sample adapter whose link request fails. -/
def failingAdapter : RequestAdapter where
  createPostRequestInformation := fun url options => .ok ⟨url, options.Headers, options.Body⟩
  sendAsync := fun _ => some (.odataError "Authorization_RequestDenied")

/-- A configured sample target. -/
def sampleTarget : AzureAD :=
  { client := some sampleClient, adapter := some sampleAdapter, config := some sampleConfig }

/-- A target whose provider fails every request. -/
def failingTarget : AzureAD :=
  { client := some failingClient, adapter := some failingAdapter, config := some sampleConfig }

/-- A target whose provider lists members but fails every point fetch. -/
def fetchFailingTarget : AzureAD :=
  { client := some fetchFailingClient, adapter := some sampleAdapter,
    config := some sampleConfig }

/-- A target whose provider creates groups but refuses to link them. -/
def linkFailingTarget : AzureAD :=
  { client := some sampleClient, adapter := some failingAdapter, config := some sampleConfig }

/-- The department handle of group `g0` on the sample target. -/
def sampleDepartment : azureGroup := ⟨sampleTarget, some (sampleGroupRecord "g0")⟩

/-- The user handle of user `u1` on the sample target. -/
def sampleUser : azureADUser := ⟨sampleTarget, some (sampleUserRecord "u1")⟩

/-- A sample codec that accepts no string holding a comma: the canonical grammar
of the spec restricted to comma-free strings. -/
def commaFreeParseString (s : String) : Except GoError ExternalIdentity :=
  if ',' ∈ s.data then .error (errorsNew "FormatError") else ExternalIdentityParseString s

/-! ## Go strings: split after join -/

theorem splitChars_ne_nil (sep : Char) (l : List Char) : splitChars sep l ≠ [] := by
  induction l with
  | nil => simp [splitChars]
  | cons c cs ih =>
    unfold splitChars
    split
    · simp
    · split <;> simp

theorem splitChars_of_not_mem (sep : Char) (l : List Char) (h : sep ∉ l) :
    splitChars sep l = [l] := by
  induction l with
  | nil => rfl
  | cons c cs ih =>
    have hc : c ≠ sep := fun e => h (by simp [e])
    have hcs : sep ∉ cs := fun m => h (List.mem_cons_of_mem _ m)
    simp [splitChars, hc, ih hcs]

theorem splitChars_append_sep (sep : Char) (a rest : List Char) (h : sep ∉ a) :
    splitChars sep (a ++ sep :: rest) = a :: splitChars sep rest := by
  induction a with
  | nil => simp [splitChars]
  | cons c cs ih =>
    have hc : c ≠ sep := fun e => h (by simp [e])
    have hcs : sep ∉ cs := fun m => h (List.mem_cons_of_mem _ m)
    simp [splitChars, hc, ih hcs]

theorem stringsJoin_cons_cons_data (a b : String) (rest : List String) :
    (stringsJoin (a :: b :: rest) ",").data
      = a.data ++ ',' :: (stringsJoin (b :: rest) ",").data := by
  simp [stringsJoin, String.data_append]

/-- Splitting a comma-joined non-empty list of comma-free strings gives the list back. -/
theorem stringsSplit_stringsJoin (l : List String) (hne : l ≠ [])
    (hcomma : ∀ s ∈ l, ',' ∉ s.data) : stringsSplit (stringsJoin l ",") ',' = l := by
  induction l with
  | nil => exact absurd rfl hne
  | cons a t ih =>
    cases t with
    | nil =>
      have ha : ',' ∉ a.data := hcomma a (by simp)
      simp [stringsSplit, stringsJoin, splitChars_of_not_mem _ _ ha]
    | cons b rest =>
      have ha : ',' ∉ a.data := hcomma a (by simp)
      have ht := ih (by simp) (fun s hs => hcomma s (List.mem_cons_of_mem _ hs))
      unfold stringsSplit at ht ⊢
      rw [stringsJoin_cons_cons_data, splitChars_append_sep _ _ _ ha, List.map_cons, ht]

/-! ## The loops as list operations -/

theorem appendIdentities_eq (start : List String) (extIDs : List ExternalIdentity) :
    appendIdentities start extIDs = start ++ extIDs := by
  unfold appendIdentities
  induction extIDs generalizing start with
  | nil => simp
  | cons x xs ih => simp [List.foldl_cons, ih]

theorem keptOtherMails_foldl (parseString : String → Except GoError ExternalIdentity)
    (otherMails acc : List String) :
    otherMails.foldl
        (fun newOtherMails mail =>
          match parseString mail with
          | .error _ => newOtherMails ++ [mail]
          | .ok _ => newOtherMails)
        acc
      = acc ++ otherMails.filter (fun m => !(parseString m).isOk) := by
  induction otherMails generalizing acc with
  | nil => simp
  | cons m ms ih =>
    rw [List.foldl_cons, ih]
    cases h : parseString m <;> simp [h, Except.isOk, Except.toBool]

theorem keptOtherMails_eq (parseString : String → Except GoError ExternalIdentity)
    (otherMails : List String) :
    keptOtherMails parseString otherMails
      = otherMails.filter (fun m => !(parseString m).isOk) := by
  unfold keptOtherMails
  rw [keptOtherMails_foldl]
  simp

theorem newOtherMails_eq (parseString : String → Except GoError ExternalIdentity)
    (otherMails : List String) (extIDs : List ExternalIdentity) :
    newOtherMails parseString otherMails extIDs
      = otherMails.filter (fun m => !(parseString m).isOk) ++ extIDs := by
  rw [newOtherMails, appendIdentities_eq, keptOtherMails_eq]

/-! ## Runs of the external-identity operations -/

theorem userSet_run (parseString : String → Except GoError ExternalIdentity)
    (u : azureADUser) (raw : User) (id : String) (client : GraphServiceClient)
    (extIDs : List ExternalIdentity)
    (hraw : u.raw = some raw) (hid : raw.id = some id) (hclient : u.target.client = some client) :
    azureADUser.SetExternalIdentities parseString u extIDs
      = ⟨[.usersByIdPatch id { otherMails := newOtherMails parseString raw.otherMails extIDs }],
          .returned
            (client.usersByIdPatch id
              { otherMails := newOtherMails parseString raw.otherMails extIDs })⟩ := by
  simp [azureADUser.SetExternalIdentities, hraw, hid, hclient, deref, Bind.bind, Run.bind,
    Pure.pure, Run.pure, Run.issue]

theorem userGet_run (parseString : String → Except GoError ExternalIdentity)
    (u : azureADUser) (raw : User) (hraw : u.raw = some raw) :
    azureADUser.GetExternalIdentities parseString u
      = ⟨[], .returned (raw.otherMails.filter (fun s => (parseString s).isOk))⟩ := by
  simp [azureADUser.GetExternalIdentities, hraw, deref, Bind.bind, Run.bind, Pure.pure,
    Run.pure, ExternalIdentitiesFromStringList]

theorem groupSet_run (u : azureGroup) (raw : Group) (id : String) (client : GraphServiceClient)
    (extIDs : List ExternalIdentity)
    (hraw : u.raw = some raw) (hid : raw.id = some id) (hclient : u.target.client = some client) :
    azureGroup.SetExternalIdentities u extIDs
      = ⟨[.groupsByIdPatch id { description := some (stringsJoin extIDs ",") }],
          .returned
            (client.groupsByIdPatch id { description := some (stringsJoin extIDs ",") })⟩ := by
  simp [azureGroup.SetExternalIdentities, newDescription, appendIdentities_eq, hraw, hid,
    hclient, deref, Bind.bind, Run.bind, Pure.pure, Run.pure, Run.issue]

theorem groupGet_run (parseString : String → Except GoError ExternalIdentity)
    (u : azureGroup) (raw : Group) (hraw : u.raw = some raw) :
    azureGroup.GetExternalIdentities parseString u
      = ⟨[], .returned
          ((stringsSplit (raw.description.getD "") ',').filter
            (fun s => (parseString s).isOk))⟩ := by
  cases hd : raw.description <;>
    simp [azureGroup.GetExternalIdentities, hraw, hd, deref, Bind.bind, Run.bind, Pure.pure,
      Run.pure, ExternalIdentitiesFromStringList]

theorem filter_valid_stringsSplit_stringsJoin
    (parseString : String → Except GoError ExternalIdentity)
    (hempty : (parseString "").isOk = false) (extIDs : List ExternalIdentity)
    (hvalid : ∀ s ∈ extIDs, (parseString s).isOk = true)
    (hcomma : ∀ s ∈ extIDs, ',' ∉ s.data) :
    (stringsSplit (stringsJoin extIDs ",") ',').filter (fun s => (parseString s).isOk)
      = extIDs := by
  cases extIDs with
  | nil =>
    have h : stringsSplit (stringsJoin [] ",") ',' = [""] := rfl
    simp [h, hempty]
  | cons a t =>
    rw [stringsSplit_stringsJoin _ (by simp) hcomma]
    exact List.filter_eq_self.mpr hvalid

/-! ## Claims on the external-identity storage -/

/-- C1. User merge policy: the other-emails list that
`azureADUser.SetExternalIdentities` sends in its patch is the entries of the old
list that `ExternalIdentityParseString` rejects, in their original order,
followed by the new identities in order; the part taken from the old list holds
no entry that parses, and every rejected entry occurs in it exactly as often as
in the old list. -/
theorem C1_user_merge_policy (parseString : String → Except GoError ExternalIdentity)
    (u : azureADUser) (raw : User) (id : String) (client : GraphServiceClient)
    (extIDs : List ExternalIdentity)
    (hraw : u.raw = some raw) (hid : raw.id = some id)
    (hclient : u.target.client = some client) :
    (azureADUser.SetExternalIdentities parseString u extIDs).calls
        = [.usersByIdPatch id
            { otherMails :=
                raw.otherMails.filter (fun m => !(parseString m).isOk) ++ extIDs }]
      ∧ keptOtherMails parseString raw.otherMails
          = raw.otherMails.filter (fun m => !(parseString m).isOk)
      ∧ (keptOtherMails parseString raw.otherMails).Sublist raw.otherMails
      ∧ (∀ m ∈ keptOtherMails parseString raw.otherMails, (parseString m).isOk = false)
      ∧ (∀ m, (parseString m).isOk = false →
          (keptOtherMails parseString raw.otherMails).count m = raw.otherMails.count m) := by
  refine ⟨?_, keptOtherMails_eq _ _, ?_, ?_, ?_⟩
  · rw [userSet_run parseString u raw id client extIDs hraw hid hclient, newOtherMails_eq]
  · rw [keptOtherMails_eq]
    exact List.filter_sublist _
  · intro m hm
    rw [keptOtherMails_eq] at hm
    simpa using (List.mem_filter.mp hm).2
  · intro m hm
    rw [keptOtherMails_eq, List.count_filter]
    simp [hm]

/-- C10. Last write wins for the user merge: with `merge old ids` the list
`azureADUser.SetExternalIdentities ids` writes over the other-emails list `old`,
`merge (merge old ids1) ids2 = merge old ids2` whenever every entry of `ids1`
parses; in particular repeating an update leaves the list, and its length,
unchanged. -/
theorem C10_last_write_wins (parseString : String → Except GoError ExternalIdentity)
    (old : List String) (ids1 ids2 : List ExternalIdentity)
    (h1 : ∀ s ∈ ids1, (parseString s).isOk = true) :
    newOtherMails parseString (newOtherMails parseString old ids1) ids2
        = newOtherMails parseString old ids2
      ∧ newOtherMails parseString (newOtherMails parseString old ids1) ids1
        = newOtherMails parseString old ids1
      ∧ (newOtherMails parseString (newOtherMails parseString old ids1) ids1).length
        = (newOtherMails parseString old ids1).length := by
  have key : ∀ ids : List ExternalIdentity,
      newOtherMails parseString (newOtherMails parseString old ids1) ids
        = newOtherMails parseString old ids := by
    intro ids
    have hdrop : ids1.filter (fun m => !(parseString m).isOk) = [] := by
      rw [List.filter_eq_nil_iff]
      intro s hs
      simp [h1 s hs]
    simp only [newOtherMails_eq, List.filter_append, List.filter_filter, hdrop,
      List.append_nil, Bool.and_self]
  exact ⟨key ids2, key ids1, by rw [key ids1]⟩

/-- C3. User merge round trip: after `azureADUser.SetExternalIdentities extIDs`
with every entry of `extIDs` a valid identity, `azureADUser.GetExternalIdentities`
on a record holding the written other-emails list returns exactly `extIDs`, and
every entry of the prior list that does not parse is still in the written list. -/
theorem C3_user_merge_round_trip (parseString : String → Except GoError ExternalIdentity)
    (u : azureADUser) (raw : User) (id : String) (client : GraphServiceClient)
    (extIDs : List ExternalIdentity)
    (hraw : u.raw = some raw) (hid : raw.id = some id)
    (hclient : u.target.client = some client)
    (hvalid : ∀ s ∈ extIDs, (parseString s).isOk = true) :
    ∃ written : List String,
      (azureADUser.SetExternalIdentities parseString u extIDs).calls
          = [.usersByIdPatch id { otherMails := written }]
        ∧ (∀ after : User, after.otherMails = written →
            azureADUser.GetExternalIdentities parseString ⟨u.target, some after⟩
              = ⟨[], .returned extIDs⟩)
        ∧ (∀ m ∈ raw.otherMails, (parseString m).isOk = false → m ∈ written) := by
  refine ⟨newOtherMails parseString raw.otherMails extIDs, ?_, ?_, ?_⟩
  · rw [userSet_run parseString u raw id client extIDs hraw hid hclient]
  · intro after hafter
    rw [userGet_run parseString ⟨u.target, some after⟩ after rfl, hafter, newOtherMails_eq,
      List.filter_append, List.filter_filter]
    have hnone : raw.otherMails.filter
        (fun a => (parseString a).isOk && !(parseString a).isOk) = [] := by
      rw [List.filter_eq_nil_iff]
      intro s _
      simp
    rw [hnone, List.nil_append, List.filter_eq_self.mpr hvalid]
  · intro m hm hbad
    rw [newOtherMails_eq]
    exact List.mem_append_left _ (List.mem_filter.mpr ⟨hm, by simp [hbad]⟩)

/-- C9. A department whose description is absent or empty has no external
identity, given that `ExternalIdentityParseString` rejects the empty string: the
split of the empty description is the one empty piece, which the codec drops. -/
theorem C9_empty_description (parseString : String → Except GoError ExternalIdentity)
    (hempty : (parseString "").isOk = false)
    (u : azureGroup) (raw : Group) (hraw : u.raw = some raw)
    (hdesc : raw.description = none ∨ raw.description = some "") :
    stringsSplit "" ',' = [""]
      ∧ azureGroup.GetExternalIdentities parseString u = ⟨[], .returned []⟩ := by
  refine ⟨rfl, ?_⟩
  have hsplit : stringsSplit "" ',' = [""] := rfl
  rw [groupGet_run parseString u raw hraw]
  rcases hdesc with h | h <;> simp [h, hsplit, hempty]

theorem splitChars_length_le (sep : Char) (l : List Char) :
    ∀ p ∈ splitChars sep l, p.length ≤ l.length := by
  induction l with
  | nil =>
    intro p hp
    simp [splitChars] at hp
    simp [hp]
  | cons c cs ih =>
    intro p hp
    unfold splitChars at hp
    split at hp
    · rcases List.mem_cons.mp hp with h | h
      · simp [h]
      · exact Nat.le_succ_of_le (ih p h)
    · split at hp
      · simp only [List.mem_singleton] at hp
        simp [hp]
      · rename_i p0 ps hsplit
        have hp0 : p0.length ≤ cs.length := ih p0 (by simp [hsplit])
        rcases List.mem_cons.mp hp with h | h
        · simpa [h] using hp0
        · exact Nat.le_succ_of_le (ih p (by simp [hsplit, h]))

theorem splitChars_length_lt (sep : Char) (l : List Char) (hsep : sep ∈ l) :
    ∀ p ∈ splitChars sep l, p.length < l.length := by
  induction l with
  | nil => simp at hsep
  | cons c cs ih =>
    intro p hp
    unfold splitChars at hp
    split at hp
    · rcases List.mem_cons.mp hp with h | h
      · simp [h]
      · exact Nat.lt_succ_of_le (splitChars_length_le sep cs p h)
    · rename_i hc
      have hcs : sep ∈ cs := by
        rcases List.mem_cons.mp hsep with h | h
        · exact absurd h.symm hc
        · exact h
      split at hp
      · rename_i hnil
        exact absurd hnil (splitChars_ne_nil sep cs)
      · rename_i p0 ps hsplit
        rcases List.mem_cons.mp hp with h | h
        · have := ih hcs p0 (by simp [hsplit])
          simpa [h] using this
        · exact Nat.lt_succ_of_lt (ih hcs p (by simp [hsplit, h]))

/-- The other direction of the department round trip: an identity that holds a
comma is cut at the comma when the description is read back, so it is not among
the identities returned, whatever the codec. -/
theorem comma_identity_not_read_back (parseString : String → Except GoError ExternalIdentity)
    (u : azureGroup) (after : Group) (s : ExternalIdentity)
    (hafter : u.raw = some after) (hdesc : after.description = some (stringsJoin [s] ","))
    (hcomma : ',' ∈ s.data) :
    azureGroup.GetExternalIdentities parseString u ≠ ⟨[], .returned [s]⟩ := by
  rw [groupGet_run parseString u after hafter, hdesc]
  intro h
  have hlist : (stringsSplit s ',').filter (fun t => (parseString t).isOk) = [s] := by
    simpa [stringsJoin] using h
  have hmem : s ∈ stringsSplit s ',' :=
    (List.mem_filter.mp (by rw [hlist]; simp)).1
  obtain ⟨p, hp, hps⟩ := List.mem_map.mp hmem
  have hlt := splitChars_length_lt ',' s.data hcomma p hp
  rw [← hps] at hlt
  exact Nat.lt_irrefl _ hlt

/-- C2. Department overwrite round trip: for every department, whatever its
prior description, `azureGroup.SetExternalIdentities extIDs` writes the
comma-joined `extIDs` as the whole description, and for every list `extIDs` of
strings that each parse as a valid identity, the empty list included,
`azureGroup.GetExternalIdentities` on a record holding that description returns
exactly `extIDs`. The codec is a parameter: it rejects the empty string and
accepts no string that holds a comma, the separator of the stored list. -/
theorem C2_department_round_trip (parseString : String → Except GoError ExternalIdentity)
    (hempty : (parseString "").isOk = false)
    (hcommaFree : ∀ s, (parseString s).isOk = true → ',' ∉ s.data)
    (u : azureGroup) (raw : Group) (id : String) (client : GraphServiceClient)
    (extIDs : List ExternalIdentity)
    (hraw : u.raw = some raw) (hid : raw.id = some id)
    (hclient : u.target.client = some client)
    (hvalid : ∀ s ∈ extIDs, (parseString s).isOk = true) :
    (azureGroup.SetExternalIdentities u extIDs).calls
        = [.groupsByIdPatch id { description := some (stringsJoin extIDs ",") }]
      ∧ (∀ after : Group, after.description = some (stringsJoin extIDs ",") →
          azureGroup.GetExternalIdentities parseString ⟨u.target, some after⟩
            = ⟨[], .returned extIDs⟩) := by
  refine ⟨?_, ?_⟩
  · rw [groupSet_run u raw id client extIDs hraw hid hclient]
  · intro after hafter
    rw [groupGet_run parseString ⟨u.target, some after⟩ after rfl, hafter]
    simp only [Option.getD_some]
    rw [filter_valid_stringsSplit_stringsJoin parseString hempty extIDs hvalid
      (fun s hs => hcommaFree s (hvalid s hs))]

/-! ## Lookup by external identity -/

theorem lookup_run (d : AzureAD) (client : GraphServiceClient) (extID : ExternalIdentity)
    (hclient : d.client = some client) :
    AzureAD.LookupEntryUserByExternalIdentity d extID
      = ⟨[.usersGet (lookupFilter extID)],
          .returned
            (match client.usersGet (lookupFilter extID) with
              | .error err => (none, some err)
              | .ok value =>
                if value.length ≠ 1 then (none, some (errorsNew "cannot identitify user"))
                else (some ⟨{}, value.head?⟩, none))⟩ := by
  cases h : client.usersGet (lookupFilter extID) with
  | error err =>
    simp [AzureAD.LookupEntryUserByExternalIdentity, hclient, h, deref, Bind.bind, Run.bind,
      Pure.pure, Run.pure, Run.issue]
  | ok value =>
    by_cases hl : value.length = 1 <;>
      simp [AzureAD.LookupEntryUserByExternalIdentity, hclient, h, hl, deref, Bind.bind,
        Run.bind, Pure.pure, Run.pure, Run.issue]

/-- C4 (amended). When the filtered user query carries no provider error,
`LookupEntryUserByExternalIdentity` returns one and the same string error,
"cannot identitify user", both for zero users and for two or more, and for
exactly one user it returns no error and a handle wrapping that record. -/
theorem C4_lookup_by_match_count (d : AzureAD) (client : GraphServiceClient)
    (extID : ExternalIdentity) (value : List User)
    (hclient : d.client = some client)
    (hresp : client.usersGet (lookupFilter extID) = .ok value) :
    (value.length = 0 →
        AzureAD.LookupEntryUserByExternalIdentity d extID
          = ⟨[.usersGet (lookupFilter extID)],
              .returned (none, some (errorsNew "cannot identitify user"))⟩)
      ∧ (2 ≤ value.length →
        AzureAD.LookupEntryUserByExternalIdentity d extID
          = ⟨[.usersGet (lookupFilter extID)],
              .returned (none, some (errorsNew "cannot identitify user"))⟩)
      ∧ (∀ u, value = [u] →
        AzureAD.LookupEntryUserByExternalIdentity d extID
          = ⟨[.usersGet (lookupFilter extID)], .returned (some ⟨{}, some u⟩, none)⟩) := by
  rw [lookup_run d client extID hclient, hresp]
  refine ⟨?_, ?_, ?_⟩
  · intro h0
    simp [h0]
  · intro h2
    have : value.length ≠ 1 := by omega
    simp [this]
  · intro u hu
    simp [hu]

/-- C8. The handle `LookupEntryUserByExternalIdentity` returns for the sole
match wraps the record but carries the zero target, so `ExternalIdentity()` on it
panics on the nil configuration, whatever the slug and platform of the target
that produced it; on a handle carrying the target itself, as `Users()` builds
them, `ExternalIdentity()` is the canonical string of the record id, slug and
platform. -/
theorem C8_lookup_handle_identity (d : AzureAD) (client : GraphServiceClient)
    (config : azureADConfig) (extID : ExternalIdentity) (u : User) (id : String)
    (hclient : d.client = some client) (hconfig : d.config = some config)
    (hone : client.usersGet (lookupFilter extID) = .ok [u]) (hid : u.id = some id) :
    (∃ h : azureADUser,
        (AzureAD.LookupEntryUserByExternalIdentity d extID).outcome = .returned (some h, none)
          ∧ h.raw = some u
          ∧ azureADUser.ExternalIdentity h = ⟨[], .panicked⟩)
      ∧ azureADUser.ExternalIdentity ⟨d, some u⟩
          = ⟨[], .returned ("ei.user." ++ id ++ "@" ++ config.Slug ++ "." ++ config.Platform)⟩ := by
  refine ⟨⟨⟨{}, some u⟩, ?_, rfl, ?_⟩, ?_⟩
  · rw [lookup_run d client extID hclient, hone]
    simp
  · simp [azureADUser.ExternalIdentity, hid, deref, Bind.bind, Run.bind, Pure.pure, Run.pure,
      Run.panicNow]
  · simp [azureADUser.ExternalIdentity, hid, hconfig, deref, Bind.bind, Run.bind, Pure.pure,
      Run.pure]

/-! ## Sub-department creation -/

theorem azureHackPost_run (adapter : RequestAdapter) (url : String)
    (options : GroupsRequestBuilderPostOptions) (request : RequestInformation)
    (hreq : adapter.createPostRequestInformation url options = .ok request) :
    azureHackPost ⟨url, some adapter⟩ (some adapter) options
      = ⟨[.sendAsync request], .returned (adapter.sendAsync request)⟩ := by
  cases h : adapter.sendAsync request <;>
    simp [azureHackPost, hreq, h, deref, Bind.bind, Run.bind, Pure.pure, Run.pure, Run.issue]

theorem create_run_linked (g : azureGroup) (options : DepartmentCreateOptions)
    (client : GraphServiceClient) (adapter : RequestAdapter) (created raw : Group)
    (newId parentId : String) (request : RequestInformation)
    (hclient : g.target.client = some client) (hadapter : g.target.adapter = some adapter)
    (hpost : client.groupsPost (newGroupBody options) = .ok created)
    (hnew : created.id = some newId) (hraw : g.raw = some raw) (hparent : raw.id = some parentId)
    (hreq : adapter.createPostRequestInformation (linkUrl parentId) (linkOptions newId)
      = .ok request) :
    azureGroup.CreateSubDepartment g options
      = ⟨[.groupsPost (newGroupBody options), .sendAsync request],
          .returned
            (some ⟨g.target, some created⟩,
              (adapter.sendAsync request).map (fmtErrorf "Link group membership faild: "))⟩ := by
  have hpostRun := azureHackPost_run adapter (linkUrl parentId) (linkOptions newId) request hreq
  cases h : adapter.sendAsync request <;>
    simp [azureGroup.CreateSubDepartment, hclient, hadapter, hpost, hnew, hraw, hparent,
      hpostRun, h, deref, Bind.bind, Run.bind, Pure.pure, Run.pure, Run.issue]

/-- C5. `CreateSubDepartment` is a two-phase operation with partial success:
(i) when the create-group request fails the result is a nil handle with an error
and the create request is the only request sent; (ii) when it succeeds and the
link request fails the result is a handle wrapping the created record together
with an error, and the create and link requests are the only requests sent;
(iii) when both succeed the result is the handle of the created record and a nil
error. -/
theorem C5_create_sub_department (g : azureGroup) (options : DepartmentCreateOptions)
    (client : GraphServiceClient) (hclient : g.target.client = some client) :
    (∀ e, client.groupsPost (newGroupBody options) = .error e →
        azureGroup.CreateSubDepartment g options
          = ⟨[.groupsPost (newGroupBody options)],
              .returned (none, some (fmtErrorf "Create group faild: " e))⟩)
      ∧ (∀ (adapter : RequestAdapter) (created raw : Group) (newId parentId : String)
          (request : RequestInformation),
          g.target.adapter = some adapter →
          client.groupsPost (newGroupBody options) = .ok created →
          created.id = some newId → g.raw = some raw → raw.id = some parentId →
          adapter.createPostRequestInformation (linkUrl parentId) (linkOptions newId)
            = .ok request →
          (∀ e, adapter.sendAsync request = some e →
              azureGroup.CreateSubDepartment g options
                = ⟨[.groupsPost (newGroupBody options), .sendAsync request],
                    .returned
                      (some ⟨g.target, some created⟩,
                        some (fmtErrorf "Link group membership faild: " e))⟩)
            ∧ (adapter.sendAsync request = none →
              azureGroup.CreateSubDepartment g options
                = ⟨[.groupsPost (newGroupBody options), .sendAsync request],
                    .returned (some ⟨g.target, some created⟩, none)⟩)) := by
  refine ⟨?_, ?_⟩
  · intro e he
    simp [azureGroup.CreateSubDepartment, hclient, he, deref, Bind.bind, Run.bind, Pure.pure,
      Run.pure, Run.issue]
  · intro adapter created raw newId parentId request hadapter hpost hnew hraw hparent hreq
    have hrun := create_run_linked g options client adapter created raw newId parentId request
      hclient hadapter hpost hnew hraw hparent hreq
    refine ⟨?_, ?_⟩
    · intro e he
      rw [hrun, he]
      rfl
    · intro he
      rw [hrun, he]
      rfl

/-! ## Member enumeration -/

theorem odataType_run (v : DirectoryObject) (tag : String)
    (h : v.additionalData.lookup "@odata.type" = some (.stringPtr (some tag))) :
    odataType v = ⟨[], .returned tag⟩ := by
  simp [odataType, h, Pure.pure, Run.pure]

theorem hasTag_iff (tag tag0 : String) (v : DirectoryObject)
    (h : v.additionalData.lookup "@odata.type" = some (.stringPtr (some tag0))) :
    hasTag tag v = decide (tag0 = tag) := by
  simp [hasTag, h]

theorem subDepartments_loop_run (target : AzureAD) (client : GraphServiceClient)
    (hclient : target.client = some client) (members : List DirectoryObject)
    (htag : ∀ v ∈ members, ∃ tag,
      v.additionalData.lookup "@odata.type" = some (.stringPtr (some tag)))
    (hid : ∀ v ∈ members, hasTag "#microsoft.graph.group" v = true → ∃ vid, v.id = some vid)
    (departments : List azureGroup) :
    azureGroup.SubDepartments.loop target members departments
      = ⟨(members.filter (hasTag "#microsoft.graph.group")).map
            (fun v => .groupsByIdGet (v.id.getD "")),
          .returned
            (departments ++ (members.filter (hasTag "#microsoft.graph.group")).map
              (fun v => ⟨target, (client.groupsByIdGet (v.id.getD "")).toOption⟩))⟩ := by
  induction members generalizing departments with
  | nil => simp [azureGroup.SubDepartments.loop, Pure.pure, Run.pure]
  | cons v rest ih =>
    obtain ⟨tag, ht⟩ := htag v (by simp)
    have ih2 := ih (fun w hw => htag w (List.mem_cons_of_mem _ hw))
      (fun w hw => hid w (List.mem_cons_of_mem _ hw))
    have hv := hasTag_iff "#microsoft.graph.group" tag v ht
    by_cases hg : tag = "#microsoft.graph.group"
    · have hvt : hasTag "#microsoft.graph.group" v = true := by simp [hv, hg]
      obtain ⟨vid, hvid⟩ := hid v (by simp) hvt
      simp [azureGroup.SubDepartments.loop, odataType_run v tag ht, hg, hvt, hvid, hclient,
        ih2, deref, Bind.bind, Run.bind, Pure.pure, Run.pure, Run.issue]
    · have hvt : hasTag "#microsoft.graph.group" v = false := by simp [hv, hg]
      simp [azureGroup.SubDepartments.loop, odataType_run v tag ht, hg, hvt, ih2, Bind.bind,
        Run.bind]

theorem users_loop_run (target : AzureAD) (client : GraphServiceClient)
    (hclient : target.client = some client) (members : List DirectoryObject)
    (htag : ∀ v ∈ members, ∃ tag,
      v.additionalData.lookup "@odata.type" = some (.stringPtr (some tag)))
    (hid : ∀ v ∈ members, hasTag "#microsoft.graph.user" v = true → ∃ vid, v.id = some vid)
    (users : List azureADUser) :
    azureGroup.Users.loop target members users
      = ⟨(members.filter (hasTag "#microsoft.graph.user")).map
            (fun v => .usersByIdGet (v.id.getD "")),
          .returned
            (users ++ (members.filter (hasTag "#microsoft.graph.user")).map
              (fun v => ⟨target, (client.usersByIdGet (v.id.getD "")).toOption⟩))⟩ := by
  induction members generalizing users with
  | nil => simp [azureGroup.Users.loop, Pure.pure, Run.pure]
  | cons v rest ih =>
    obtain ⟨tag, ht⟩ := htag v (by simp)
    have ih2 := ih (fun w hw => htag w (List.mem_cons_of_mem _ hw))
      (fun w hw => hid w (List.mem_cons_of_mem _ hw))
    have hv := hasTag_iff "#microsoft.graph.user" tag v ht
    by_cases hg : tag = "#microsoft.graph.user"
    · have hvt : hasTag "#microsoft.graph.user" v = true := by simp [hv, hg]
      obtain ⟨vid, hvid⟩ := hid v (by simp) hvt
      simp [azureGroup.Users.loop, odataType_run v tag ht, hg, hvt, hvid, hclient,
        ih2, deref, Bind.bind, Run.bind, Pure.pure, Run.pure, Run.issue]
    · have hvt : hasTag "#microsoft.graph.user" v = false := by simp [hv, hg]
      simp [azureGroup.Users.loop, odataType_run v tag ht, hg, hvt, ih2, Bind.bind,
        Run.bind]

theorem subDepartments_run (g : azureGroup) (raw : Group) (id : String)
    (client : GraphServiceClient) (members : List DirectoryObject)
    (hraw : g.raw = some raw) (hgid : raw.id = some id)
    (hclient : g.target.client = some client)
    (hlist : client.groupsByIdMembersGet id = .ok members)
    (htag : ∀ v ∈ members, ∃ tag,
      v.additionalData.lookup "@odata.type" = some (.stringPtr (some tag)))
    (hid : ∀ v ∈ members, hasTag "#microsoft.graph.group" v = true → ∃ vid, v.id = some vid) :
    azureGroup.SubDepartments g
      = ⟨.groupsByIdMembersGet id ::
            (members.filter (hasTag "#microsoft.graph.group")).map
              (fun v => .groupsByIdGet (v.id.getD "")),
          .returned
            ((members.filter (hasTag "#microsoft.graph.group")).map
              (fun v => ⟨g.target, (client.groupsByIdGet (v.id.getD "")).toOption⟩))⟩ := by
  simp [azureGroup.SubDepartments, hraw, hgid, hclient, hlist, Except.toOption,
    subDepartments_loop_run g.target client hclient members htag hid, deref, Bind.bind,
    Run.bind, Pure.pure, Run.pure, Run.issue]

theorem users_run (g : azureGroup) (raw : Group) (id : String)
    (client : GraphServiceClient) (members : List DirectoryObject)
    (hraw : g.raw = some raw) (hgid : raw.id = some id)
    (hclient : g.target.client = some client)
    (hlist : client.groupsByIdMembersGet id = .ok members)
    (htag : ∀ v ∈ members, ∃ tag,
      v.additionalData.lookup "@odata.type" = some (.stringPtr (some tag)))
    (hid : ∀ v ∈ members, hasTag "#microsoft.graph.user" v = true → ∃ vid, v.id = some vid) :
    azureGroup.Users g
      = ⟨.groupsByIdMembersGet id ::
            (members.filter (hasTag "#microsoft.graph.user")).map
              (fun v => .usersByIdGet (v.id.getD "")),
          .returned
            ((members.filter (hasTag "#microsoft.graph.user")).map
              (fun v => ⟨g.target, (client.usersByIdGet (v.id.getD "")).toOption⟩))⟩ := by
  simp [azureGroup.Users, hraw, hgid, hclient, hlist, Except.toOption,
    users_loop_run g.target client hclient members htag hid, deref, Bind.bind,
    Run.bind, Pure.pure, Run.pure, Run.issue]

/-- C6. For a group whose member listing succeeds, whose members all carry a
string `@odata.type` tag and whose follow-up group fetches all succeed,
`SubDepartments` returns one department per member tagged as a group, in the
listing order and no other, each wrapping the full record the follow-up fetch of
that member's id returned. -/
theorem C6_sub_departments (g : azureGroup) (raw : Group) (id : String)
    (client : GraphServiceClient) (members : List DirectoryObject)
    (hraw : g.raw = some raw) (hgid : raw.id = some id)
    (hclient : g.target.client = some client)
    (hlist : client.groupsByIdMembersGet id = .ok members)
    (htag : ∀ v ∈ members, ∃ tag,
      v.additionalData.lookup "@odata.type" = some (.stringPtr (some tag)))
    (hfetch : ∀ v ∈ members, hasTag "#microsoft.graph.group" v = true →
      ∃ vid full, v.id = some vid ∧ client.groupsByIdGet vid = .ok full) :
    ∃ departments : List azureGroup,
      (azureGroup.SubDepartments g).outcome = .returned departments
        ∧ List.Forall₂
            (fun v d => ∃ vid full, v.id = some vid ∧ client.groupsByIdGet vid = .ok full
              ∧ d = ⟨g.target, some full⟩)
            (members.filter (hasTag "#microsoft.graph.group")) departments := by
  have hid : ∀ v ∈ members, hasTag "#microsoft.graph.group" v = true →
      ∃ vid, v.id = some vid := by
    intro v hv ht
    obtain ⟨vid, _, hvid, _⟩ := hfetch v hv ht
    exact ⟨vid, hvid⟩
  refine ⟨(members.filter (hasTag "#microsoft.graph.group")).map
    (fun v => ⟨g.target, (client.groupsByIdGet (v.id.getD "")).toOption⟩), ?_, ?_⟩
  · rw [subDepartments_run g raw id client members hraw hgid hclient hlist htag hid]
  · rw [List.forall₂_map_right_iff, List.forall₂_same]
    intro v hv
    obtain ⟨hmem, ht⟩ := List.mem_filter.mp hv
    obtain ⟨vid, full, hvid, hfull⟩ := hfetch v hmem ht
    exact ⟨vid, full, hvid, hfull, by simp [hvid, hfull, Except.toOption]⟩

/-! ## Error propagation -/

theorem lookup_propagates (d : AzureAD) (extID : ExternalIdentity) (c : Call) (e : GoError)
    (hc : c ∈ (AzureAD.LookupEntryUserByExternalIdentity d extID).calls)
    (he : d.providerError c = some e) :
    (AzureAD.LookupEntryUserByExternalIdentity d extID).outcome = .returned (none, some e) := by
  cases hclient : d.client with
  | none =>
    simp [AzureAD.LookupEntryUserByExternalIdentity, hclient, deref, Bind.bind, Run.bind,
      Run.panicNow] at hc
  | some client =>
    rw [lookup_run d client extID hclient] at hc ⊢
    simp only [List.mem_singleton] at hc
    subst hc
    simp only [AzureAD.providerError, hclient, Option.some_bind] at he
    cases h : client.usersGet (lookupFilter extID) with
    | error err =>
      rw [h] at he
      simp only [errorOf, Option.some.injEq] at he
      simp [he]
    | ok value =>
      rw [h] at he
      simp [errorOf] at he

theorem groupSet_propagates (g : azureGroup) (extIDs : List ExternalIdentity) (c : Call)
    (e : GoError) (hc : c ∈ (azureGroup.SetExternalIdentities g extIDs).calls)
    (he : g.target.providerError c = some e) :
    (azureGroup.SetExternalIdentities g extIDs).outcome = .returned (some e) := by
  cases hraw : g.raw with
  | none =>
    simp [azureGroup.SetExternalIdentities, hraw, deref, Bind.bind, Run.bind, Run.panicNow] at hc
  | some raw =>
    cases hid : raw.id with
    | none =>
      simp [azureGroup.SetExternalIdentities, hraw, hid, deref, Bind.bind, Run.bind,
        Run.panicNow, Pure.pure, Run.pure] at hc
    | some id =>
      cases hclient : g.target.client with
      | none =>
        simp [azureGroup.SetExternalIdentities, hraw, hid, hclient, deref, Bind.bind, Run.bind,
          Run.panicNow, Pure.pure, Run.pure] at hc
      | some client =>
        rw [groupSet_run g raw id client extIDs hraw hid hclient] at hc ⊢
        simp only [List.mem_singleton] at hc
        subst hc
        simp only [AzureAD.providerError, hclient, Option.some_bind] at he
        rw [he]

theorem userSet_propagates (parseString : String → Except GoError ExternalIdentity)
    (u : azureADUser) (extIDs : List ExternalIdentity) (c : Call)
    (e : GoError) (hc : c ∈ (azureADUser.SetExternalIdentities parseString u extIDs).calls)
    (he : u.target.providerError c = some e) :
    (azureADUser.SetExternalIdentities parseString u extIDs).outcome = .returned (some e) := by
  cases hraw : u.raw with
  | none =>
    simp [azureADUser.SetExternalIdentities, hraw, deref, Bind.bind, Run.bind,
      Run.panicNow] at hc
  | some raw =>
    cases hid : raw.id with
    | none =>
      simp [azureADUser.SetExternalIdentities, hraw, hid, deref, Bind.bind, Run.bind,
        Run.panicNow, Pure.pure, Run.pure] at hc
    | some id =>
      cases hclient : u.target.client with
      | none =>
        simp [azureADUser.SetExternalIdentities, hraw, hid, hclient, deref, Bind.bind,
          Run.bind, Run.panicNow, Pure.pure, Run.pure] at hc
      | some client =>
        rw [userSet_run parseString u raw id client extIDs hraw hid hclient] at hc ⊢
        simp only [List.mem_singleton] at hc
        subst hc
        simp only [AzureAD.providerError, hclient, Option.some_bind] at he
        rw [he]

theorem root_run (d : AzureAD) (config : azureADConfig) (client : GraphServiceClient)
    (hconfig : d.config = some config) (hclient : d.client = some client) :
    AzureAD.RootDepartment d
      = ⟨[.groupsByIdGet config.RootGroupID],
          .returned ⟨d, (client.groupsByIdGet config.RootGroupID).toOption⟩⟩ := by
  simp [AzureAD.RootDepartment, hconfig, hclient, deref, Bind.bind, Run.bind, Pure.pure,
    Run.pure, Run.issue]

theorem create_calls_cases (g : azureGroup) (options : DepartmentCreateOptions)
    (client : GraphServiceClient) (created : Group) (c : Call)
    (hclient : g.target.client = some client)
    (hpost : client.groupsPost (newGroupBody options) = .ok created)
    (hc : c ∈ (azureGroup.CreateSubDepartment g options).calls) :
    c = .groupsPost (newGroupBody options)
      ∨ ∃ (adapter : RequestAdapter) (raw : Group) (newId parentId : String)
          (request : RequestInformation),
          g.target.adapter = some adapter ∧ created.id = some newId ∧ g.raw = some raw
            ∧ raw.id = some parentId
            ∧ adapter.createPostRequestInformation (linkUrl parentId) (linkOptions newId)
                = .ok request
            ∧ c = .sendAsync request := by
  cases hnew : created.id with
  | none =>
    left
    simpa [azureGroup.CreateSubDepartment, hclient, hpost, hnew, deref, Bind.bind, Run.bind,
      Run.panicNow, Pure.pure, Run.pure, Run.issue] using hc
  | some newId =>
    cases hraw : g.raw with
    | none =>
      left
      simpa [azureGroup.CreateSubDepartment, hclient, hpost, hnew, hraw, deref, Bind.bind,
        Run.bind, Run.panicNow, Pure.pure, Run.pure, Run.issue] using hc
    | some raw =>
      cases hparent : raw.id with
      | none =>
        left
        simpa [azureGroup.CreateSubDepartment, hclient, hpost, hnew, hraw, hparent, deref,
          Bind.bind, Run.bind, Run.panicNow, Pure.pure, Run.pure, Run.issue] using hc
      | some parentId =>
        cases hadapter : g.target.adapter with
        | none =>
          left
          simpa [azureGroup.CreateSubDepartment, azureHackPost, hclient, hpost, hnew, hraw,
            hparent, hadapter, deref, Bind.bind, Run.bind, Run.panicNow, Pure.pure, Run.pure,
            Run.issue] using hc
        | some adapter =>
          cases hreq : adapter.createPostRequestInformation (linkUrl parentId)
              (linkOptions newId) with
          | error er =>
            left
            simpa [azureGroup.CreateSubDepartment, azureHackPost, hclient, hpost, hnew, hraw,
              hparent, hadapter, hreq, deref, Bind.bind, Run.bind, Run.panicNow, Pure.pure,
              Run.pure, Run.issue] using hc
          | ok request =>
            rw [create_run_linked g options client adapter created raw newId parentId request
              hclient hadapter hpost hnew hraw hparent hreq] at hc
            simp only [List.mem_cons, List.mem_singleton, List.not_mem_nil, or_false] at hc
            rcases hc with h | h
            · exact Or.inl h
            · exact Or.inr ⟨adapter, raw, newId, parentId, request, rfl, rfl, rfl, hparent,
                hreq, h⟩

theorem create_propagates (g : azureGroup) (options : DepartmentCreateOptions) (c : Call)
    (e : GoError) (hc : c ∈ (azureGroup.CreateSubDepartment g options).calls)
    (he : g.target.providerError c = some e) :
    ∃ h : Option azureGroup,
      (azureGroup.CreateSubDepartment g options).outcome
          = .returned (h, some (fmtErrorf "Create group faild: " e))
        ∨ (azureGroup.CreateSubDepartment g options).outcome
          = .returned (h, some (fmtErrorf "Link group membership faild: " e)) := by
  cases hclient : g.target.client with
  | none =>
    simp [azureGroup.CreateSubDepartment, hclient, deref, Bind.bind, Run.bind,
      Run.panicNow] at hc
  | some client =>
    cases hpost : client.groupsPost (newGroupBody options) with
    | error err =>
      have hrun : azureGroup.CreateSubDepartment g options
          = ⟨[.groupsPost (newGroupBody options)],
              .returned (none, some (fmtErrorf "Create group faild: " err))⟩ := by
        simp [azureGroup.CreateSubDepartment, hclient, hpost, deref, Bind.bind, Run.bind,
          Pure.pure, Run.pure, Run.issue]
      rw [hrun] at hc ⊢
      simp only [List.mem_singleton] at hc
      subst hc
      simp only [AzureAD.providerError, hclient, Option.some_bind, hpost, errorOf,
        Option.some.injEq] at he
      exact ⟨none, Or.inl (by rw [he])⟩
    | ok created =>
      rcases create_calls_cases g options client created c hclient hpost hc with h | h
      · subst h
        simp [AzureAD.providerError, hclient, hpost, errorOf] at he
      · obtain ⟨adapter, raw, newId, parentId, request, hadapter, hnew, hraw, hparent, hreq,
          hsend⟩ := h
        subst hsend
        simp only [AzureAD.providerError, hadapter, Option.some_bind] at he
        refine ⟨some ⟨g.target, some created⟩, Or.inr ?_⟩
        rw [create_run_linked g options client adapter created raw newId parentId request
          hclient hadapter hpost hnew hraw hparent hreq, he]
        rfl

/-- C7 (amended). Error propagation: `LookupEntryUserByExternalIdentity` and
both `SetExternalIdentities` return unmodified the error of any provider request
they sent, and `CreateSubDepartment` returns it inside a string error with a
context prefix; `RootDepartment`, `SubDepartments` and `Users` have no error
result: the error of the root fetch, and of each per-member fetch after a
successful listing, is discarded and the handle wraps a nil record. -/
theorem C7_error_propagation :
    (∀ (d : AzureAD) (extID : ExternalIdentity) (c : Call) (e : GoError),
        c ∈ (AzureAD.LookupEntryUserByExternalIdentity d extID).calls →
        d.providerError c = some e →
        (AzureAD.LookupEntryUserByExternalIdentity d extID).outcome
          = .returned (none, some e))
      ∧ (∀ (g : azureGroup) (options : DepartmentCreateOptions) (c : Call) (e : GoError),
        c ∈ (azureGroup.CreateSubDepartment g options).calls →
        g.target.providerError c = some e →
        ∃ h : Option azureGroup,
          (azureGroup.CreateSubDepartment g options).outcome
              = .returned (h, some (fmtErrorf "Create group faild: " e))
            ∨ (azureGroup.CreateSubDepartment g options).outcome
              = .returned (h, some (fmtErrorf "Link group membership faild: " e)))
      ∧ (∀ (g : azureGroup) (extIDs : List ExternalIdentity) (c : Call) (e : GoError),
        c ∈ (azureGroup.SetExternalIdentities g extIDs).calls →
        g.target.providerError c = some e →
        (azureGroup.SetExternalIdentities g extIDs).outcome = .returned (some e))
      ∧ (∀ (parseString : String → Except GoError ExternalIdentity) (u : azureADUser)
          (extIDs : List ExternalIdentity) (c : Call) (e : GoError),
        c ∈ (azureADUser.SetExternalIdentities parseString u extIDs).calls →
        u.target.providerError c = some e →
        (azureADUser.SetExternalIdentities parseString u extIDs).outcome = .returned (some e))
      ∧ (∀ (d : AzureAD) (config : azureADConfig) (client : GraphServiceClient) (e : GoError),
        d.config = some config → d.client = some client →
        client.groupsByIdGet config.RootGroupID = .error e →
        AzureAD.RootDepartment d
          = ⟨[.groupsByIdGet config.RootGroupID], .returned ⟨d, none⟩⟩)
      ∧ (∀ (g : azureGroup) (raw : Group) (id : String) (client : GraphServiceClient)
          (members : List DirectoryObject),
        g.raw = some raw → raw.id = some id → g.target.client = some client →
        client.groupsByIdMembersGet id = .ok members →
        (∀ v ∈ members, ∃ tag,
          v.additionalData.lookup "@odata.type" = some (.stringPtr (some tag))) →
        (∀ v ∈ members, ∃ vid, v.id = some vid) →
        (azureGroup.SubDepartments g).outcome
            = .returned
                ((members.filter (hasTag "#microsoft.graph.group")).map
                  (fun v => ⟨g.target, (client.groupsByIdGet (v.id.getD "")).toOption⟩))
          ∧ (azureGroup.Users g).outcome
            = .returned
                ((members.filter (hasTag "#microsoft.graph.user")).map
                  (fun v => ⟨g.target, (client.usersByIdGet (v.id.getD "")).toOption⟩))) := by
  refine ⟨lookup_propagates, create_propagates, groupSet_propagates, userSet_propagates,
    ?_, ?_⟩
  · intro d config client e hconfig hclient he
    rw [root_run d config client hconfig hclient, he]
    rfl
  · intro g raw id client members hraw hgid hclient hlist htag hid
    refine ⟨?_, ?_⟩
    · rw [subDepartments_run g raw id client members hraw hgid hclient hlist htag
        (fun v hv _ => hid v hv)]
    · rw [users_run g raw id client members hraw hgid hclient hlist htag
        (fun v hv _ => hid v hv)]

/-! ## The claims at concrete inputs -/

/-- C1 at the sample user: prior list `real@x.com`, one old identity; the patch
keeps the email, drops the old identity and appends the new one. -/
theorem C1_user_merge_policy_witness :
    (sampleUser.raw = some (sampleUserRecord "u1") ∧ (sampleUserRecord "u1").id = some "u1"
        ∧ sampleUser.target.client = some sampleClient)
      ∧ (azureADUser.SetExternalIdentities ExternalIdentityParseString sampleUser
          ["ei.user.a@s.p"]).calls
        = [.usersByIdPatch "u1" { otherMails := ["real@x.com", "ei.user.a@s.p"] }] :=
  ⟨⟨rfl, rfl, rfl⟩,
    (C1_user_merge_policy ExternalIdentityParseString sampleUser (sampleUserRecord "u1") "u1"
      sampleClient ["ei.user.a@s.p"] rfl rfl rfl).1.trans (by decide)⟩

/-- C10 at a concrete list: a second update replaces the identities of the first. -/
theorem C10_last_write_wins_witness :
    (∀ s ∈ ["ei.user.a@s.p"], (ExternalIdentityParseString s).isOk = true)
      ∧ newOtherMails ExternalIdentityParseString
          (newOtherMails ExternalIdentityParseString ["real@x.com", "ei.user.old@other.ldap"]
            ["ei.user.a@s.p"])
          ["ei.user.b@s.p"]
        = ["real@x.com", "ei.user.b@s.p"] :=
  ⟨by decide,
    (C10_last_write_wins ExternalIdentityParseString ["real@x.com", "ei.user.old@other.ldap"]
      ["ei.user.a@s.p"] ["ei.user.b@s.p"] (by decide)).1.trans (by decide)⟩

/-- C3 at the sample user: prior list `real@x.com` and an old identity, new
identities `[a]`; reading back gives `[a]` and `real@x.com` is preserved. -/
theorem C3_user_merge_round_trip_witness :
    (∀ s ∈ ["ei.user.a@s.p"], (ExternalIdentityParseString s).isOk = true)
      ∧ ∃ written : List String,
          (azureADUser.SetExternalIdentities ExternalIdentityParseString sampleUser
              ["ei.user.a@s.p"]).calls
            = [.usersByIdPatch "u1" { otherMails := written }]
          ∧ azureADUser.GetExternalIdentities ExternalIdentityParseString
              ⟨sampleTarget, some { id := some "u1", otherMails := written }⟩
            = ⟨[], .returned ["ei.user.a@s.p"]⟩
          ∧ "real@x.com" ∈ written := by
  obtain ⟨written, hcalls, hget, hkeep⟩ :=
    C3_user_merge_round_trip ExternalIdentityParseString sampleUser (sampleUserRecord "u1")
      "u1" sampleClient ["ei.user.a@s.p"] rfl rfl rfl (by decide)
  exact ⟨by decide, written, hcalls, hget _ rfl, hkeep "real@x.com" (by decide) (by decide)⟩

/-- C9 at a department without description and the spec's codec. -/
theorem C9_empty_description_witness :
    (ExternalIdentityParseString "").isOk = false
      ∧ azureGroup.GetExternalIdentities ExternalIdentityParseString
          ⟨sampleTarget, some { id := some "g0" }⟩
        = ⟨[], .returned []⟩ :=
  ⟨by decide,
    (C9_empty_description ExternalIdentityParseString (by decide)
      ⟨sampleTarget, some { id := some "g0" }⟩ { id := some "g0" } rfl (Or.inl rfl)).2⟩

/-- C2 at the sample department, with the sample codec that accepts no comma:
two identities are written as one description and read back, and so is the empty
list. -/
theorem C2_department_round_trip_witness :
    ((commaFreeParseString "").isOk = false
        ∧ (∀ s, (commaFreeParseString s).isOk = true → ',' ∉ s.data)
        ∧ (∀ s ∈ ["ei.user.a@s.p", "ei.department.d@s.p"],
          (commaFreeParseString s).isOk = true))
      ∧ (azureGroup.SetExternalIdentities sampleDepartment
          ["ei.user.a@s.p", "ei.department.d@s.p"]).calls
        = [.groupsByIdPatch "g0" { description := some "ei.user.a@s.p,ei.department.d@s.p" }]
      ∧ azureGroup.GetExternalIdentities commaFreeParseString
          ⟨sampleTarget,
            some { id := some "g0", description := some "ei.user.a@s.p,ei.department.d@s.p" }⟩
        = ⟨[], .returned ["ei.user.a@s.p", "ei.department.d@s.p"]⟩
      ∧ azureGroup.GetExternalIdentities commaFreeParseString
          ⟨sampleTarget, some { id := some "g0", description := some "" }⟩
        = ⟨[], .returned []⟩ :=
  have hfree : ∀ s, (commaFreeParseString s).isOk = true → ',' ∉ s.data := by
    intro s hs hc
    simp [commaFreeParseString, hc, Except.isOk, Except.toBool] at hs
  have h := C2_department_round_trip commaFreeParseString (by decide) hfree sampleDepartment
    (sampleGroupRecord "g0") "g0" sampleClient ["ei.user.a@s.p", "ei.department.d@s.p"]
    rfl rfl rfl (by decide)
  have h0 := C2_department_round_trip commaFreeParseString (by decide) hfree sampleDepartment
    (sampleGroupRecord "g0") "g0" sampleClient [] rfl rfl rfl (by simp)
  ⟨⟨by decide, hfree, by decide⟩, h.1.trans (by decide), h.2 _ (by decide), h0.2 _ rfl⟩

/-- C4 at the sample target: the identity `ei.user.1@other.ldap` has one match. -/
theorem C4_lookup_by_match_count_witness :
    (sampleTarget.client = some sampleClient
        ∧ sampleClient.usersGet (lookupFilter "ei.user.1@other.ldap")
          = .ok [sampleUserRecord "u1"])
      ∧ AzureAD.LookupEntryUserByExternalIdentity sampleTarget "ei.user.1@other.ldap"
        = ⟨[.usersGet (lookupFilter "ei.user.1@other.ldap")],
            .returned (some ⟨{}, some (sampleUserRecord "u1")⟩, none)⟩ :=
  ⟨⟨rfl, rfl⟩,
    (C4_lookup_by_match_count sampleTarget sampleClient "ei.user.1@other.ldap"
      [sampleUserRecord "u1"] rfl rfl).2.2 (sampleUserRecord "u1") rfl⟩

/-- C4 fails as stated: a query without match and a query with two matches end
in the very same error value, so the two cases are not told apart by an error
kind. -/
theorem C4_counterexample :
    sampleClient.usersGet (lookupFilter "ei.user.0@other.ldap") = .ok []
      ∧ sampleClient.usersGet (lookupFilter "ei.user.2@other.ldap")
        = .ok [sampleUserRecord "u2", sampleUserRecord "u3"]
      ∧ (AzureAD.LookupEntryUserByExternalIdentity sampleTarget "ei.user.0@other.ldap").outcome
        = .returned (none, some (errorsNew "cannot identitify user"))
      ∧ (AzureAD.LookupEntryUserByExternalIdentity sampleTarget "ei.user.2@other.ldap").outcome
        = .returned (none, some (errorsNew "cannot identitify user")) := by
  have h0 : sampleClient.usersGet (lookupFilter "ei.user.0@other.ldap") = .ok [] := rfl
  have h2 : sampleClient.usersGet (lookupFilter "ei.user.2@other.ldap")
      = .ok [sampleUserRecord "u2", sampleUserRecord "u3"] := rfl
  refine ⟨h0, h2, ?_, ?_⟩
  · rw [lookup_run sampleTarget sampleClient _ rfl, h0]
    rfl
  · rw [lookup_run sampleTarget sampleClient _ rfl, h2]
    rfl

/-- C8 at the sample target, configured with slug `acme` and platform
`azuread`: the handle the lookup returns panics on `ExternalIdentity()`, the
handle with the target itself gives `ei.user.u1@acme.azuread`. -/
theorem C8_lookup_handle_identity_witness :
    (sampleTarget.client = some sampleClient ∧ sampleTarget.config = some sampleConfig
        ∧ sampleClient.usersGet (lookupFilter "ei.user.1@other.ldap")
          = .ok [sampleUserRecord "u1"])
      ∧ (∃ h : azureADUser,
          (AzureAD.LookupEntryUserByExternalIdentity sampleTarget
              "ei.user.1@other.ldap").outcome = .returned (some h, none)
            ∧ h.raw = some (sampleUserRecord "u1")
            ∧ azureADUser.ExternalIdentity h = ⟨[], .panicked⟩)
      ∧ azureADUser.ExternalIdentity ⟨sampleTarget, some (sampleUserRecord "u1")⟩
          = ⟨[], .returned "ei.user.u1@acme.azuread"⟩ :=
  have h := C8_lookup_handle_identity sampleTarget sampleClient sampleConfig
    "ei.user.1@other.ldap" (sampleUserRecord "u1") "u1" rfl rfl rfl rfl
  ⟨⟨rfl, rfl, rfl⟩, h.1, h.2.trans (by decide)⟩

/-- C5 at three sample targets: the create request refused, the link request
refused, and both accepted. -/
theorem C5_create_sub_department_witness :
    (azureGroup.CreateSubDepartment ⟨failingTarget, some (sampleGroupRecord "g0")⟩ ⟨"eng"⟩
        = ⟨[.groupsPost (newGroupBody ⟨"eng"⟩)],
            .returned
              (none,
                some (fmtErrorf "Create group faild: "
                  (.odataError "Authorization_RequestDenied")))⟩)
      ∧ (azureGroup.CreateSubDepartment ⟨linkFailingTarget, some (sampleGroupRecord "g0")⟩
          ⟨"eng"⟩
        = ⟨[.groupsPost (newGroupBody ⟨"eng"⟩),
              .sendAsync ⟨linkUrl "g0", (linkOptions "gNew").Headers, (linkOptions "gNew").Body⟩],
            .returned
              (some ⟨linkFailingTarget, some { newGroupBody ⟨"eng"⟩ with id := some "gNew" }⟩,
                some (fmtErrorf "Link group membership faild: "
                  (.odataError "Authorization_RequestDenied")))⟩)
      ∧ (azureGroup.CreateSubDepartment sampleDepartment ⟨"eng"⟩
        = ⟨[.groupsPost (newGroupBody ⟨"eng"⟩),
              .sendAsync ⟨linkUrl "g0", (linkOptions "gNew").Headers, (linkOptions "gNew").Body⟩],
            .returned
              (some ⟨sampleTarget, some { newGroupBody ⟨"eng"⟩ with id := some "gNew" }⟩,
                none)⟩) :=
  ⟨(C5_create_sub_department ⟨failingTarget, some (sampleGroupRecord "g0")⟩ ⟨"eng"⟩
      failingClient rfl).1 (.odataError "Authorization_RequestDenied") rfl,
    ((C5_create_sub_department ⟨linkFailingTarget, some (sampleGroupRecord "g0")⟩ ⟨"eng"⟩
      sampleClient rfl).2 failingAdapter { newGroupBody ⟨"eng"⟩ with id := some "gNew" }
      (sampleGroupRecord "g0") "gNew" "g0"
      ⟨linkUrl "g0", (linkOptions "gNew").Headers, (linkOptions "gNew").Body⟩
      rfl rfl rfl rfl rfl rfl).1 (.odataError "Authorization_RequestDenied") rfl,
    ((C5_create_sub_department sampleDepartment ⟨"eng"⟩ sampleClient rfl).2 sampleAdapter
      { newGroupBody ⟨"eng"⟩ with id := some "gNew" } (sampleGroupRecord "g0") "gNew" "g0"
      ⟨linkUrl "g0", (linkOptions "gNew").Headers, (linkOptions "gNew").Body⟩
      rfl rfl rfl rfl rfl rfl).2 rfl⟩

/-- C6 at the sample department: members `[gA, uB, gC]` give the departments
of `gA` and `gC`, each with the full record of the follow-up fetch. -/
theorem C6_sub_departments_witness :
    sampleClient.groupsByIdMembersGet "g0"
        = .ok [sampleMember "gA" "#microsoft.graph.group",
            sampleMember "uB" "#microsoft.graph.user",
            sampleMember "gC" "#microsoft.graph.group"]
      ∧ (azureGroup.SubDepartments sampleDepartment).outcome
        = .returned
            [⟨sampleTarget, some (sampleGroupRecord "gA")⟩,
              ⟨sampleTarget, some (sampleGroupRecord "gC")⟩] := by
  obtain ⟨departments, hout, hall⟩ :=
    C6_sub_departments sampleDepartment (sampleGroupRecord "g0") "g0" sampleClient
      [sampleMember "gA" "#microsoft.graph.group", sampleMember "uB" "#microsoft.graph.user",
        sampleMember "gC" "#microsoft.graph.group"]
      rfl rfl rfl rfl
      (by
        intro v hv
        simp only [List.mem_cons, List.mem_singleton, List.not_mem_nil, or_false] at hv
        rcases hv with h | h | h <;> subst h <;> exact ⟨_, rfl⟩)
      (by
        intro v hv _
        simp only [List.mem_cons, List.mem_singleton, List.not_mem_nil, or_false] at hv
        rcases hv with h | h | h <;> subst h <;> exact ⟨_, _, rfl, rfl⟩)
  refine ⟨rfl, ?_⟩
  rw [hout]
  have hfilter :
      [sampleMember "gA" "#microsoft.graph.group", sampleMember "uB" "#microsoft.graph.user",
          sampleMember "gC" "#microsoft.graph.group"].filter (hasTag "#microsoft.graph.group")
        = [sampleMember "gA" "#microsoft.graph.group",
            sampleMember "gC" "#microsoft.graph.group"] := by decide
  rw [hfilter] at hall
  cases hall with
  | cons hA hrest =>
    cases hrest with
    | cons hC hnil =>
      cases hnil
      obtain ⟨vidA, fullA, hidA, hfA, hdA⟩ := hA
      obtain ⟨vidC, fullC, hidC, hfC, hdC⟩ := hC
      have eA : vidA = "gA" := (Option.some.inj hidA).symm
      have eC : vidC = "gC" := (Option.some.inj hidC).symm
      subst eA eC
      have fA : fullA = sampleGroupRecord "gA" := (Except.ok.inj hfA).symm
      have fC : fullC = sampleGroupRecord "gC" := (Except.ok.inj hfC).symm
      subst fA fC
      rw [hdA, hdC]
      rfl

/-- C7 at the failing sample targets: the lookup and both updates return the
provider error, the creation returns it with its context; the root fetch error
is discarded. -/
theorem C7_error_propagation_witness :
    (AzureAD.LookupEntryUserByExternalIdentity failingTarget "ei.user.1@other.ldap").outcome
        = .returned (none, some (.odataError "Request_UnsupportedQuery"))
      ∧ (azureGroup.SetExternalIdentities ⟨failingTarget, some (sampleGroupRecord "g0")⟩
          ["ei.user.a@s.p"]).outcome
        = .returned (some (.odataError "Authorization_RequestDenied"))
      ∧ (azureADUser.SetExternalIdentities ExternalIdentityParseString
          ⟨failingTarget, some (sampleUserRecord "u1")⟩ ["ei.user.a@s.p"]).outcome
        = .returned (some (.odataError "Authorization_RequestDenied"))
      ∧ (∃ h : Option azureGroup,
          (azureGroup.CreateSubDepartment ⟨linkFailingTarget, some (sampleGroupRecord "g0")⟩
              ⟨"eng"⟩).outcome
            = .returned (h, some (fmtErrorf "Create group faild: "
                (.odataError "Authorization_RequestDenied")))
          ∨ (azureGroup.CreateSubDepartment ⟨linkFailingTarget, some (sampleGroupRecord "g0")⟩
              ⟨"eng"⟩).outcome
            = .returned (h, some (fmtErrorf "Link group membership faild: "
                (.odataError "Authorization_RequestDenied"))))
      ∧ AzureAD.RootDepartment failingTarget
        = ⟨[.groupsByIdGet "root"], .returned ⟨failingTarget, none⟩⟩ :=
  ⟨C7_error_propagation.1 failingTarget "ei.user.1@other.ldap"
      (.usersGet (lookupFilter "ei.user.1@other.ldap")) _ (List.mem_singleton.mpr rfl) rfl,
    C7_error_propagation.2.2.1 ⟨failingTarget, some (sampleGroupRecord "g0")⟩
      ["ei.user.a@s.p"] (.groupsByIdPatch "g0" { description := some "ei.user.a@s.p" }) _
      (List.mem_singleton.mpr rfl) rfl,
    C7_error_propagation.2.2.2.1 ExternalIdentityParseString
      ⟨failingTarget, some (sampleUserRecord "u1")⟩ ["ei.user.a@s.p"]
      (.usersByIdPatch "u1" { otherMails := ["real@x.com", "ei.user.a@s.p"] }) _
      (List.mem_singleton.mpr rfl) rfl,
    C7_error_propagation.2.1 ⟨linkFailingTarget, some (sampleGroupRecord "g0")⟩ ⟨"eng"⟩
      (.sendAsync ⟨linkUrl "g0", (linkOptions "gNew").Headers, (linkOptions "gNew").Body⟩) _
      (List.mem_cons_of_mem _ (List.mem_singleton.mpr rfl)) rfl,
    C7_error_propagation.2.2.2.2.1 failingTarget sampleConfig failingClient
      (.odataError "Request_ResourceNotFound") rfl rfl rfl⟩

/-- C7 fails as stated: on a provider that lists the members of `g0` but fails
every point fetch, `SubDepartments` sends the fetch of `gA`, the provider answers
it with an error, and `SubDepartments` returns normally two handles with nil
records; the same holds for `Users` and the fetch of `uB`. No error reaches the
caller, so `RootDepartment` is not the only operation that discards one. -/
theorem C7_counterexample :
    (Call.groupsByIdGet "gA"
        ∈ (azureGroup.SubDepartments ⟨fetchFailingTarget, some (sampleGroupRecord "g0")⟩).calls
      ∧ fetchFailingTarget.providerError (.groupsByIdGet "gA")
        = some (.odataError "Request_ResourceNotFound")
      ∧ (azureGroup.SubDepartments ⟨fetchFailingTarget, some (sampleGroupRecord "g0")⟩).outcome
        = .returned [⟨fetchFailingTarget, none⟩, ⟨fetchFailingTarget, none⟩])
      ∧ (Call.usersByIdGet "uB"
        ∈ (azureGroup.Users ⟨fetchFailingTarget, some (sampleGroupRecord "g0")⟩).calls
      ∧ fetchFailingTarget.providerError (.usersByIdGet "uB")
        = some (.odataError "Request_ResourceNotFound")
      ∧ (azureGroup.Users ⟨fetchFailingTarget, some (sampleGroupRecord "g0")⟩).outcome
        = .returned [⟨fetchFailingTarget, none⟩]) := by
  refine ⟨⟨?_, rfl, rfl⟩, ⟨?_, rfl, rfl⟩⟩
  · decide
  · decide

end OrgManager
